import Mathlib

/-!
# Verification of the Github_Plugin aggregation engine

A shallow embedding of the core of the Github_Plugin repository
(`main.py`, `src/github.py`, `src/utils.py`) together with proofs of the
behavioural properties stated in its specification.

Modelling conventions:
* Python lists become Lean `List`s; in-place mutation (`prs[:] = ...`,
  `prs.sort(...)`) becomes explicit value passing.
* Python's `list.sort` is stable; it is modelled by `List.insertionSort`,
  which is stable in the same sense.
* `datetime` values become `Int` (seconds); `timedelta(minutes=1)` is `60`.
* Network calls become fields of a `World` record mapping URLs to either a
  payload (`Except.ok`) or a transport/parse failure (`Except.error ()`).
* `multiprocessing.Process` children that raise an exception die silently:
  `Process.join` does not re-raise, so the parent merely finds no entry in
  the shared result dictionary.  This is modelled by the failing child
  contributing nothing to the merged result.
-/

namespace GithubPlugin

/-- The `PullRequest` dataclass of `src/github.py`.  `created_at` is a
parsed timestamp, modelled as an integer number of seconds; `approves`
is the Python list built by `Github.__get_pr_approves` (it may contain
duplicates). -/
structure PullRequest where
  repo : String
  title : String
  url : String
  is_draft : Bool
  created_by : String
  created_at : Int
  approves : List String
deriving DecidableEq

/-- `pr_is_approved` from `src/utils.py`:
`len(pr.approves) >= 2 or user in pr.approves`. -/
def pr_is_approved (pr : PullRequest) (user : String) : Bool :=
  decide (2 ≤ pr.approves.length) || pr.approves.contains user

/-- `in_place_filter` from `src/utils.py`.  The Python function mutates
`array` to keep exactly the elements satisfying `predicate` and returns the
removed elements; here the pair (updated array, removed elements) is
returned, in that order of computation. -/
def in_place_filter {α : Type} (array : List α) (predicate : α → Bool) :
    List α × List α :=
  (array.filter predicate, array.filter (fun x => !(predicate x)))

/-- The comparison realised by `prs.sort(key=lambda pr: pr.created_at,
reverse=True)` in `GithubController.__order_filter_prs`: a stable sort
placing larger `created_at` first. -/
def byCreatedAtDesc (a b : PullRequest) : Prop :=
  b.created_at ≤ a.created_at

instance : DecidableRel byCreatedAtDesc :=
  fun a b => Int.decLe b.created_at a.created_at

instance : IsTotal PullRequest byCreatedAtDesc :=
  ⟨fun a b => Int.le_total b.created_at a.created_at⟩

instance : IsTrans PullRequest byCreatedAtDesc :=
  ⟨fun _ _ _ hab hbc => le_trans hbc hab⟩

/-- The sort key of `prs.sort(key=lambda pr: -1 if pr.created_by ==
self.user else 0)`. -/
def userKey (user : String) (pr : PullRequest) : Int :=
  if pr.created_by = user then -1 else 0

/-- The comparison realised by the second stable sort of
`GithubController.__order_filter_prs`. -/
def byUserFirst (user : String) (a b : PullRequest) : Prop :=
  userKey user a ≤ userKey user b

instance (user : String) : DecidableRel (byUserFirst user) :=
  fun a b => Int.decLe (userKey user a) (userKey user b)

instance (user : String) : IsTotal PullRequest (byUserFirst user) :=
  ⟨fun a b => Int.le_total (userKey user a) (userKey user b)⟩

instance (user : String) : IsTrans PullRequest (byUserFirst user) :=
  ⟨fun _ _ _ hab hbc => le_trans hab hbc⟩

/-- The first three statements of `GithubController.__order_filter_prs`:
drop drafts, stable-sort by `created_at` descending, then stable-sort
user-authored records to the front. -/
def ordered_prs (user : String) (prs : List PullRequest) : List PullRequest :=
  List.insertionSort (byUserFirst user)
    (List.insertionSort byCreatedAtDesc (prs.filter (fun pr => !pr.is_draft)))

/-- `GithubController.__order_filter_prs`: returns `(open_prs,
approved_prs)` exactly as the Python method returns `(prs,
approved_prs)` after the in-place filter. -/
def order_filter_prs (user : String) (prs : List PullRequest) :
    List PullRequest × List PullRequest :=
  in_place_filter (ordered_prs user prs) (fun pr => !(pr_is_approved pr user))

/-! ## The query engine (`KeywordQueryEventListener.on_event` and
`GithubController.build_pr_items`) -/

/-- Case-insensitive substring test on character lists: the meaning of
`re.search(pattern, s, re.IGNORECASE)` for patterns without
regular-expression metacharacters. -/
def isSubstringOf (needle : List Char) : List Char → Bool
  | [] => needle.isEmpty
  | c :: rest => needle.isPrefixOf (c :: rest) || isSubstringOf needle rest

/-- Lower-cased character list of a string. -/
def lowerChars (s : String) : List Char :=
  s.toList.map Char.toLower

/-- Model of `re.search(pattern, s, re.IGNORECASE)` truthiness for
metacharacter-free patterns: case-insensitive substring search. -/
def re_search_ci (pattern s : String) : Bool :=
  isSubstringOf (lowerChars pattern) (lowerChars s)

/-- The predicate passed by `KeywordQueryEventListener.on_event`:
`re.search(query, pr.title, re.IGNORECASE) or re.search(query, pr.repo,
re.IGNORECASE)`. -/
def keyword_query_matches (query : String) (pr : PullRequest) : Bool :=
  re_search_ci query pr.title || re_search_ci query pr.repo

/-- The list comprehension of `GithubController.build_pr_items` restricted
to its record content: keep exactly the records of `relevant_prs`
satisfying the predicate, in order. -/
def build_pr_items (relevant_prs : List PullRequest)
    (predicate : PullRequest → Bool) : List PullRequest :=
  relevant_prs.filter predicate

/-- The record sequence rendered by `KeywordQueryEventListener.on_event`
for a query over the open view. -/
def keyword_query_on_event (query : String) (open_prs : List PullRequest) :
    List PullRequest :=
  build_pr_items open_prs (keyword_query_matches query)

/-! ## The fetch layer (`src/github.py`) -/

/-- One element of a `GET {pr.url}/reviews` payload. -/
structure ReviewPayload where
  state : String
  user_login : String
deriving DecidableEq

/-- One element of a `GET {repo.url}/pulls` payload, with `created_at`
already parsed (parsing happens inside `Github.__build_pr`). -/
structure PrPayload where
  repo_name : String
  title : String
  html_url : String
  draft : Bool
  user_login : String
  created_at : Int
  url : String
deriving DecidableEq

/-- One element of the organisation repository listing. -/
structure RepoPayload where
  url : String
deriving DecidableEq

/-- The `GithubError` exception of `src/github.py`. -/
structure GithubError where
  title : String
  description : String
deriving DecidableEq

/-- The fixed error raised by `Github.get_prs` on any exception it
observes. -/
def github_fetch_error : GithubError :=
  { title := "Error getting Pull Requests",
    description := "Check you connectivity, github url and access token" }

/-- The network, as the fetch layer sees it: each endpoint either yields a
parsed payload or fails. -/
structure World where
  repos : Except Unit (List RepoPayload)
  pulls : String → Except Unit (List PrPayload)
  reviews : String → Except Unit (List ReviewPayload)

/-- `Github.__get_pr_approves` applied to an already-fetched reviews
payload: keep entries with state "APPROVED" and project the reviewer
logins, without deduplication. -/
def get_pr_approves (reviews : List ReviewPayload) : List String :=
  (reviews.filter (fun r => r.state == "APPROVED")).map (fun r => r.user_login)

/-- `Github.__build_pr`, run in its own child process.  If the reviews
request fails, the child dies with an unhandled exception and never writes
its entry into the shared dictionary (`none`); otherwise the built record
is stored under the pull request's API url. -/
def build_pr (w : World) (pr : PrPayload) : Option PullRequest :=
  match w.reviews pr.url with
  | Except.error _ => none
  | Except.ok reviews =>
      some { repo := pr.repo_name
             title := pr.title
             url := pr.html_url
             is_draft := pr.draft
             created_by := pr.user_login
             created_at := pr.created_at
             approves := get_pr_approves reviews }

/-- `Github.__fetch_prs`, run in its own child process.  If the pulls
request fails, the child dies before writing `shared_result[repo_url]`, so
the repository contributes no records at all; otherwise it contributes the
records of the grandchildren that completed. -/
def fetch_prs (w : World) (repo_url : String) : List PullRequest :=
  match w.pulls repo_url with
  | Except.error _ => []
  | Except.ok prs => prs.filterMap (build_pr w)

/-- `Github.get_prs`: list the repositories (an exception here is caught
in the parent process and re-raised as `github_fetch_error`), start one
child per repository, join them all, and flatten whatever entries the
children managed to write.  Exceptions inside children do not propagate
through `Process.join`, so they cannot reach the `except` clause. -/
def get_prs (w : World) : Except GithubError (List PullRequest) :=
  match w.repos with
  | Except.error _ => Except.error github_fetch_error
  | Except.ok repos => Except.ok (repos.flatMap (fun r => fetch_prs w r.url))

/-! ## The controller cache (`GithubController`) -/

/-- The cached pair `(open_prs, approved_prs)`. -/
abbrev Snapshot := List PullRequest × List PullRequest

/-- The mutable `last_request` field of `GithubController`: `none` until
the first successful fetch, then the fetch time and the snapshot. -/
structure ControllerState where
  last_request : Option (Int × Snapshot)
deriving DecidableEq

/-- `GithubController.__fetch_prs`: fetch, order/partition, and on success
store the snapshot stamped with the current time; on failure the exception
propagates before the assignment to `last_request` runs, leaving the state
untouched. -/
def controller_fetch_prs (user : String) (w : World) (now : Int)
    (st : ControllerState) : Except GithubError Snapshot × ControllerState :=
  match get_prs w with
  | Except.error e => (Except.error e, st)
  | Except.ok prs =>
      let prs_tuple := order_filter_prs user prs
      (Except.ok prs_tuple, { last_request := some (now, prs_tuple) })

/-- `GithubController.__get_prs`: serve the cached snapshot if one exists
and is younger than one minute, otherwise fetch.  The third component
counts how many times the underlying fetch was invoked during the call. -/
def controller_get_prs (user : String) (w : World) (now : Int)
    (st : ControllerState) :
    Except GithubError Snapshot × ControllerState × Nat :=
  match st.last_request with
  | some (t, snapshot) =>
      if now - t < 60 then (Except.ok snapshot, st, 0)
      else ((controller_fetch_prs user w now st).1,
            (controller_fetch_prs user w now st).2, 1)
  | none => ((controller_fetch_prs user w now st).1,
             (controller_fetch_prs user w now st).2, 1)

/-! ## Concrete data used by witnesses and counterexamples -/

/-- A non-draft record authored by bob and approved only by alice. -/
def examplePr : PullRequest :=
  { repo := "repo-a", title := "Add feature", url := "https://g/1",
    is_draft := false, created_by := "bob", created_at := 100,
    approves := ["alice"] }

/-- A draft record. -/
def draftPr : PullRequest :=
  { repo := "repo-a", title := "WIP change", url := "https://g/2",
    is_draft := true, created_by := "bob", created_at := 200,
    approves := [] }

/-- A network in which the repository listing succeeds with no
repositories. -/
def emptyWorld : World :=
  { repos := Except.ok []
    pulls := fun _ => Except.error ()
    reviews := fun _ => Except.error () }

/-- A network in which the repository listing itself fails. -/
def failWorld : World :=
  { repos := Except.error ()
    pulls := fun _ => Except.error ()
    reviews := fun _ => Except.error () }

/-- The pulls payload of the repository whose fetch succeeds in the C3
scenario. -/
def c3PrPayload : PrPayload :=
  { repo_name := "repo-b", title := "Add docs", html_url := "https://g/b/2",
    draft := false, user_login := "bob", created_at := 50,
    url := "https://api/b/2" }

/-- A network with two repositories: the pulls request of the first fails,
the second succeeds with one pull request that has no reviews. -/
def c3World : World :=
  { repos := Except.ok [{ url := "https://api/a" }, { url := "https://api/b" }]
    pulls := fun u =>
      if u = "https://api/b" then Except.ok [c3PrPayload] else Except.error ()
    reviews := fun u =>
      if u = "https://api/b/2" then Except.ok [] else Except.error () }

/-- The single record the code builds in the C3 scenario. -/
def c3Pr : PullRequest :=
  { repo := "repo-b", title := "Add docs", url := "https://g/b/2",
    is_draft := false, created_by := "bob", created_at := 50, approves := [] }

/-- A single reviewer re-approving: two APPROVED reviews by bob. -/
def bobReApproves : List ReviewPayload :=
  [{ state := "APPROVED", user_login := "bob" },
   { state := "APPROVED", user_login := "bob" }]

/-! ## Helper lemmas -/

lemma userKey_eq_neg_one {user : String} {pr : PullRequest}
    (h : (pr.created_by == user) = true) : userKey user pr = -1 := by
  simp [userKey, eq_of_beq h]

lemma userKey_eq_zero {user : String} {pr : PullRequest}
    (h : (pr.created_by == user) = false) : userKey user pr = 0 := by
  have hne : ¬ pr.created_by = user := by
    intro hh
    rw [hh] at h
    simp at h
  simp [userKey, hne]

lemma byUserFirst_of_both_user {user : String} {a b : PullRequest}
    (ha : (a.created_by == user) = true) (hb : (b.created_by == user) = true) :
    byUserFirst user a b := by
  unfold byUserFirst
  rw [userKey_eq_neg_one ha, userKey_eq_neg_one hb]

lemma byUserFirst_of_both_other {user : String} {a b : PullRequest}
    (ha : (a.created_by == user) = false) (hb : (b.created_by == user) = false) :
    byUserFirst user a b := by
  unfold byUserFirst
  rw [userKey_eq_zero ha, userKey_eq_zero hb]

lemma byUserFirst_pin {user : String} {a b : PullRequest}
    (h : byUserFirst user a b) : a.created_by = user ∨ ¬ b.created_by = user := by
  by_cases ha : a.created_by = user
  · exact Or.inl ha
  · right
    intro hb
    unfold byUserFirst userKey at h
    rw [if_neg ha, if_pos hb] at h
    omega

/-- Stability of insertion sort on a tie class: if all elements selected by
`p` are mutually related by `r`, sorting does not change their relative
order, so filtering by `p` commutes with the sort. -/
lemma filter_insertionSort_tie {α : Type} {r : α → α → Prop} [DecidableRel r]
    (p : α → Bool) (l : List α)
    (htie : ∀ a b, p a = true → p b = true → r a b) :
    (List.insertionSort r l).filter p = l.filter p := by
  have hpw : (l.filter p).Pairwise r :=
    List.pairwise_of_forall_mem_list (fun a ha b hb =>
      htie a b (List.of_mem_filter ha) (List.of_mem_filter hb))
  have hsub : List.Sublist (l.filter p) (List.insertionSort r l) :=
    List.sublist_insertionSort hpw (List.filter_sublist l)
  have hsub2 : List.Sublist (l.filter p) ((List.insertionSort r l).filter p) := by
    have h2 := hsub.filter p
    rwa [show (l.filter p).filter p = l.filter p from
      List.filter_eq_self.mpr (fun a ha => List.of_mem_filter ha)] at h2
  have hlen : ((List.insertionSort r l).filter p).length = (l.filter p).length :=
    ((List.perm_insertionSort r l).filter p).length_eq
  exact (hsub2.eq_of_length hlen.symm).symm

lemma mem_ordered_prs {user : String} {prs : List PullRequest}
    {pr : PullRequest} :
    pr ∈ ordered_prs user prs ↔ pr ∈ prs ∧ pr.is_draft = false := by
  unfold ordered_prs
  rw [List.mem_insertionSort, List.mem_insertionSort, List.mem_filter]
  simp

lemma pr_is_approved_iff {pr : PullRequest} {user : String} :
    pr_is_approved pr user = true ↔
      2 ≤ pr.approves.length ∨ user ∈ pr.approves := by
  simp [pr_is_approved, List.elem_iff]

lemma mem_open_iff {user : String} {prs : List PullRequest} {pr : PullRequest} :
    pr ∈ (order_filter_prs user prs).1 ↔
      pr ∈ ordered_prs user prs ∧ pr_is_approved pr user = false := by
  unfold order_filter_prs in_place_filter
  simp [List.mem_filter]

lemma mem_approved_iff {user : String} {prs : List PullRequest}
    {pr : PullRequest} :
    pr ∈ (order_filter_prs user prs).2 ↔
      pr ∈ ordered_prs user prs ∧ pr_is_approved pr user = true := by
  unfold order_filter_prs in_place_filter
  simp [List.mem_filter]

lemma isSubstringOf_nil (l : List Char) : isSubstringOf [] l = true := by
  cases l <;> simp [isSubstringOf, List.isPrefixOf, List.isEmpty]

lemma lowerChars_empty : lowerChars "" = [] := rfl

lemma controller_fetch_prs_ok {user : String} {w : World} {now : Int}
    {st : ControllerState} {prs : List PullRequest}
    (h : get_prs w = Except.ok prs) :
    controller_fetch_prs user w now st =
      (Except.ok (order_filter_prs user prs),
       { last_request := some (now, order_filter_prs user prs) }) := by
  unfold controller_fetch_prs
  rw [h]

lemma controller_fetch_prs_err {user : String} {w : World} {now : Int}
    {st : ControllerState} {e : GithubError}
    (h : get_prs w = Except.error e) :
    controller_fetch_prs user w now st = (Except.error e, st) := by
  unfold controller_fetch_prs
  rw [h]

/-! ## Claim theorems -/

/-- C1: the pre-partition sequence produced by the ordering step of
`__order_filter_prs` puts every record authored by `user` before every
record authored by someone else, and within the user-authored group and
within the remaining group records are non-increasing by `created_at`. -/
theorem ordering_pins_user_then_recency (user : String)
    (prs : List PullRequest) :
    (ordered_prs user prs).Pairwise
      (fun a b => a.created_by = user ∨ ¬ b.created_by = user) ∧
    ((ordered_prs user prs).filter
        (fun pr => pr.created_by == user)).Pairwise
      (fun a b => b.created_at ≤ a.created_at) ∧
    ((ordered_prs user prs).filter
        (fun pr => !(pr.created_by == user))).Pairwise
      (fun a b => b.created_at ≤ a.created_at) := by
  refine ⟨?_, ?_, ?_⟩
  · exact List.Pairwise.imp byUserFirst_pin
      (List.sorted_insertionSort (byUserFirst user)
        (List.insertionSort byCreatedAtDesc (prs.filter (fun pr => !pr.is_draft))))
  · unfold ordered_prs
    rw [filter_insertionSort_tie (r := byUserFirst user)
      (fun pr => pr.created_by == user)
      (List.insertionSort byCreatedAtDesc (prs.filter (fun pr => !pr.is_draft)))
      (fun a b ha hb => byUserFirst_of_both_user ha hb)]
    exact List.Pairwise.filter _
      (List.sorted_insertionSort byCreatedAtDesc
        (prs.filter (fun pr => !pr.is_draft)))
  · unfold ordered_prs
    rw [filter_insertionSort_tie (r := byUserFirst user)
      (fun pr => !(pr.created_by == user))
      (List.insertionSort byCreatedAtDesc (prs.filter (fun pr => !pr.is_draft)))
      (fun a b ha hb =>
        byUserFirst_of_both_other (by simpa using ha) (by simpa using hb))]
    exact List.Pairwise.filter _
      (List.sorted_insertionSort byCreatedAtDesc
        (prs.filter (fun pr => !pr.is_draft)))

/-- C2: a non-draft record of the input lands in `approved_prs` exactly
when it has at least two recorded approvals or the acting user is among
its approvers, and in `open_prs` exactly otherwise. -/
theorem approval_partition (user : String) (prs : List PullRequest)
    (pr : PullRequest) (hmem : pr ∈ prs) (hdraft : pr.is_draft = false) :
    (pr ∈ (order_filter_prs user prs).2 ↔
      2 ≤ pr.approves.length ∨ user ∈ pr.approves) ∧
    (pr ∈ (order_filter_prs user prs).1 ↔
      ¬ (2 ≤ pr.approves.length ∨ user ∈ pr.approves)) := by
  have hord : pr ∈ ordered_prs user prs := mem_ordered_prs.mpr ⟨hmem, hdraft⟩
  constructor
  · rw [mem_approved_iff]
    simp [hord, pr_is_approved_iff]
  · rw [mem_open_iff]
    simp only [hord, true_and]
    rw [← pr_is_approved_iff]
    simp

/-- C2 witness: with user alice, a record approved only by alice is in
`approved_prs` and not in `open_prs`. -/
theorem approval_partition_witness :
    (examplePr ∈ (order_filter_prs "alice" [examplePr]).2 ↔
      2 ≤ examplePr.approves.length ∨ "alice" ∈ examplePr.approves) ∧
    (examplePr ∈ (order_filter_prs "alice" [examplePr]).1 ↔
      ¬ (2 ≤ examplePr.approves.length ∨ "alice" ∈ examplePr.approves)) :=
  approval_partition "alice" [examplePr] examplePr (by decide) rfl

/-- C7: both outputs of `__order_filter_prs` are subsequences of the
ordered pre-partition sequence, they are disjoint, and together they
contain exactly the non-draft input records. -/
theorem partition_disjoint_complete (user : String) (prs : List PullRequest) :
    List.Sublist (order_filter_prs user prs).1 (ordered_prs user prs) ∧
    List.Sublist (order_filter_prs user prs).2 (ordered_prs user prs) ∧
    (∀ x, x ∈ (order_filter_prs user prs).1 →
      x ∉ (order_filter_prs user prs).2) ∧
    (∀ x, x ∈ (order_filter_prs user prs).1 ∨
        x ∈ (order_filter_prs user prs).2 ↔ x ∈ prs ∧ x.is_draft = false) := by
  refine ⟨List.filter_sublist _, List.filter_sublist _, ?_, ?_⟩
  · intro x hop hap
    have h1 := (mem_open_iff.mp hop).2
    have h2 := (mem_approved_iff.mp hap).2
    rw [h1] at h2
    exact Bool.noConfusion h2
  · intro x
    constructor
    · intro hx
      cases hx with
      | inl h => exact mem_ordered_prs.mp (mem_open_iff.mp h).1
      | inr h => exact mem_ordered_prs.mp (mem_approved_iff.mp h).1
    · intro hx
      have hord : x ∈ ordered_prs user prs := mem_ordered_prs.mpr hx
      by_cases happ : pr_is_approved x user = true
      · exact Or.inr (mem_approved_iff.mpr ⟨hord, happ⟩)
      · exact Or.inl (mem_open_iff.mpr
          ⟨hord, Bool.eq_false_iff.mpr happ⟩)

/-- C8: a draft record never appears in either output of
`__order_filter_prs`. -/
theorem drafts_never_displayed (user : String) (prs : List PullRequest)
    (pr : PullRequest) (hdraft : pr.is_draft = true) :
    pr ∉ (order_filter_prs user prs).1 ∧
    pr ∉ (order_filter_prs user prs).2 := by
  constructor
  · intro h
    have h2 := (mem_ordered_prs.mp (mem_open_iff.mp h).1).2
    rw [hdraft] at h2
    exact Bool.noConfusion h2
  · intro h
    have h2 := (mem_ordered_prs.mp (mem_approved_iff.mp h).1).2
    rw [hdraft] at h2
    exact Bool.noConfusion h2

/-- C8 witness: a concrete draft record is excluded from both outputs. -/
theorem drafts_never_displayed_witness :
    draftPr ∉ (order_filter_prs "alice" [draftPr]).1 ∧
    draftPr ∉ (order_filter_prs "alice" [draftPr]).2 :=
  drafts_never_displayed "alice" [draftPr] draftPr rfl

/-- C9: the keyword-query filter keeps exactly the open records whose
title or repository matches the query case-insensitively, as a
subsequence of the input in its original order. -/
theorem query_filter_exact (query : String) (open_prs : List PullRequest) :
    List.Sublist (keyword_query_on_event query open_prs) open_prs ∧
    ∀ pr, pr ∈ keyword_query_on_event query open_prs ↔
      pr ∈ open_prs ∧
        (re_search_ci query pr.title = true ∨
          re_search_ci query pr.repo = true) := by
  constructor
  · exact List.filter_sublist _
  · intro pr
    simp [keyword_query_on_event, build_pr_items, keyword_query_matches,
      List.mem_filter]

/-- C10: querying with the empty pattern (the default when no argument is
typed) returns the open view unchanged. -/
theorem empty_query_identity (open_prs : List PullRequest) :
    keyword_query_on_event "" open_prs = open_prs := by
  unfold keyword_query_on_event build_pr_items
  apply List.filter_eq_self.mpr
  intro pr _
  simp [keyword_query_matches, re_search_ci, lowerChars_empty, isSubstringOf_nil]

/-- C3: evaluating `Github.get_prs` at a network where one repository's
pulls request fails.  The child process handling that repository dies
without propagating its exception through `Process.join`, so the fetch
succeeds with a partial list containing only the other repository's pull
request, instead of failing with the aggregate error. -/
theorem incomplete_result_on_leaf_failure :
    get_prs c3World = Except.ok [c3Pr] ∧
    c3World.pulls "https://api/a" = Except.error () := by
  constructor <;> rfl

/-- C4 counterexample: a pull request whose only approvals come from one
re-approving reviewer gets an approvers collection of size 2, not 1 —
`Github.__get_pr_approves` does not collapse duplicate logins. -/
theorem duplicate_approver_not_collapsed :
    ¬ (get_pr_approves bobReApproves).length = 1 := by decide

/-- C4 amended: the approvers collection is a list that keeps duplicates —
a reviewer with n APPROVED reviews contributes n entries. -/
theorem approvers_keep_duplicates (login : String) (n : Nat) :
    get_pr_approves
        (List.replicate n { state := "APPROVED", user_login := login }) =
      List.replicate n login := by
  unfold get_pr_approves
  rw [List.filter_replicate_of_pos (by simp), List.map_replicate]

/-- C5: a `__get_prs` call made less than 60 seconds after a call that
stored a snapshot returns that snapshot verbatim with no fetch; a call
with no cache entry or a stale one invokes the fetch exactly once and, on
success, stores the fresh snapshot stamped with the call time. -/
theorem cache_ttl (user : String) (w w2 : World) (t1 t2 : Int)
    (st st1 : ControllerState) (r : Except GithubError Snapshot) (k : Nat)
    (snap : Snapshot) (prs : List PullRequest) :
    (controller_get_prs user w t1 st = (r, st1, k) →
      st1.last_request = some (t1, snap) →
      t1 ≤ t2 → t2 - t1 < 60 →
      controller_get_prs user w2 t2 st1 = (Except.ok snap, st1, 0)) ∧
    ((st.last_request = none ∨
        ∃ t0 snap0, st.last_request = some (t0, snap0) ∧ 60 ≤ t1 - t0) →
      (controller_get_prs user w t1 st).2.2 = 1 ∧
      (get_prs w = Except.ok prs →
        controller_get_prs user w t1 st =
          (Except.ok (order_filter_prs user prs),
           { last_request := some (t1, order_filter_prs user prs) }, 1))) := by
  constructor
  · intro _ hstored hle hlt
    unfold controller_get_prs
    rw [hstored]
    simp [hlt]
  · intro hstale
    have hfetch : controller_get_prs user w t1 st =
        ((controller_fetch_prs user w t1 st).1,
         (controller_fetch_prs user w t1 st).2, 1) := by
      unfold controller_get_prs
      rcases hstale with hnone | ⟨t0, snap0, hsome, hge⟩
      · rw [hnone]
      · rw [hsome]
        have hnlt : ¬ (t1 - t0 < 60) := by omega
        simp [hnlt]
    constructor
    · rw [hfetch]
    · intro hok
      rw [hfetch, controller_fetch_prs_ok hok]

/-- C5 witness: a fresh-cache call at t = 30 after a miss that stored at
t = 0 serves the stored snapshot with no fetch, and a call with an empty
cache invokes the fetch exactly once. -/
theorem cache_ttl_witness :
    controller_get_prs "u" emptyWorld 30 { last_request := some (0, ([], [])) } =
      (Except.ok ([], []), { last_request := some (0, ([], [])) }, 0) ∧
    (controller_get_prs "u" emptyWorld 0 { last_request := none }).2.2 = 1 :=
  ⟨(cache_ttl "u" emptyWorld emptyWorld 0 30 { last_request := none }
      { last_request := some (0, ([], [])) } (Except.ok ([], [])) 1
      ([], []) []).1 rfl rfl (by decide) (by decide),
   ((cache_ttl "u" emptyWorld emptyWorld 0 0 { last_request := none }
      { last_request := none } (Except.ok ([], [])) 1 ([], []) []).2
      (Or.inl rfl)).1⟩

/-- C6: when the fetch attempted by a `__get_prs` call fails, the cache
entry is left exactly as it was, the error propagates to the caller, and
any later call still attempts the fetch again. -/
theorem fetch_failure_leaves_cache (user : String) (w : World) (now : Int)
    (st : ControllerState) (e : GithubError)
    (hstale : st.last_request = none ∨
      ∃ t snap, st.last_request = some (t, snap) ∧ 60 ≤ now - t)
    (herr : get_prs w = Except.error e) :
    controller_get_prs user w now st = (Except.error e, st, 1) ∧
    ∀ w2 now2, now ≤ now2 →
      (controller_get_prs user w2 now2 st).2.2 = 1 := by
  have hfetch : ∀ (w3 : World) (n : Int),
      (st.last_request = none ∨
        ∃ t snap, st.last_request = some (t, snap) ∧ 60 ≤ n - t) →
      controller_get_prs user w3 n st =
        ((controller_fetch_prs user w3 n st).1,
         (controller_fetch_prs user w3 n st).2, 1) := by
    intro w3 n h
    unfold controller_get_prs
    rcases h with hnone | ⟨t0, snap0, hsome, hge⟩
    · rw [hnone]
    · rw [hsome]
      have hnlt : ¬ (n - t0 < 60) := by omega
      simp [hnlt]
  constructor
  · rw [hfetch w now hstale, controller_fetch_prs_err herr]
  · intro w2 now2 hle
    have hstale2 : st.last_request = none ∨
        ∃ t snap, st.last_request = some (t, snap) ∧ 60 ≤ now2 - t := by
      rcases hstale with hnone | ⟨t0, snap0, hsome, hge⟩
      · exact Or.inl hnone
      · exact Or.inr ⟨t0, snap0, hsome, by omega⟩
    rw [hfetch w2 now2 hstale2]

/-- C6 witness: with an empty cache and a network whose repository listing
fails, the call returns the aggregate error, leaves the cache empty, and
counts one fetch; a later call fetches again. -/
theorem fetch_failure_leaves_cache_witness :
    (controller_get_prs "u" failWorld 0 { last_request := none } =
      (Except.error github_fetch_error, { last_request := none }, 1)) ∧
    (controller_get_prs "u" failWorld 10 { last_request := none }).2.2 = 1 :=
  ⟨(fetch_failure_leaves_cache "u" failWorld 0 { last_request := none }
      github_fetch_error (Or.inl rfl) rfl).1,
   (fetch_failure_leaves_cache "u" failWorld 0 { last_request := none }
      github_fetch_error (Or.inl rfl) rfl).2 failWorld 10 (by decide)⟩

end GithubPlugin
